import Mathlib

/-!
Verification development for the URL feature-extraction and threat-scoring
pipeline of `app.py` (Cyber_Carnival_2026).

Python strings are modelled as `List Char` (one entry per code point, so
`List.length` is Python's `len`).  Python's true division on the ratio and
score fields is modelled exactly over `ℚ`.  The ASCII character-class
predicates (`str.isdigit`, `str.isalpha`, `str.isalnum`, `str.lower`,
`str.strip`) are modelled on the ASCII range, which is the range the
feature pipeline is designed for.
-/

/-- Model of Python `c.isdigit()` on the ASCII range: `'0'..'9'`. -/
def pyIsDigit (c : Char) : Bool :=
  48 ≤ c.toNat && c.toNat ≤ 57

/-- Model of Python `c.isupper()` on the ASCII range: `'A'..'Z'`. -/
def pyIsUpper (c : Char) : Bool :=
  65 ≤ c.toNat && c.toNat ≤ 90

/-- Model of Python `c.islower()` on the ASCII range: `'a'..'z'`. -/
def pyIsLower (c : Char) : Bool :=
  97 ≤ c.toNat && c.toNat ≤ 122

/-- Model of Python `c.isalpha()` on the ASCII range. -/
def pyIsAlpha (c : Char) : Bool :=
  pyIsUpper c || pyIsLower c

/-- Model of Python `c.isalnum()` on the ASCII range: letters and digits. -/
def pyIsAlnum (c : Char) : Bool :=
  pyIsAlpha c || pyIsDigit c

/-- Model of Python `str.lower` on a single character (ASCII range). -/
def pyToLower (c : Char) : Char :=
  if pyIsUpper c then Char.ofNat (c.toNat + 32) else c

/-- Python whitespace characters stripped by `str.strip()` (ASCII range). -/
def pyIsSpace (c : Char) : Bool :=
  c == ' ' || c == '\t' || c == '\n' || c == '\r' || c == '\x0b' || c == '\x0c'

/-- Model of Python `str.strip()` with no arguments: drop whitespace from
both ends. -/
def pyStrip (s : List Char) : List Char :=
  ((s.dropWhile pyIsSpace).reverse.dropWhile pyIsSpace).reverse

/-- `isPrefixList pat l` holds when `pat` is a prefix of `l`
(Python `str.startswith`). -/
def isPrefixList : List Char → List Char → Bool
  | [], _ => true
  | _ :: _, [] => false
  | a :: as, b :: bs => a == b && isPrefixList as bs

/-- `containsSub l pat` holds when `pat` occurs as a contiguous substring of
`l` (Python's `pat in l` on strings). -/
def containsSub : List Char → List Char → Bool
  | [], pat => pat.isEmpty
  | a :: t, pat => isPrefixList pat (a :: t) || containsSub t pat

/-- Model of Python `str.split('.')`: the list of `'.'`-separated labels
(splitting the empty string gives one empty label). -/
def splitOnDot : List Char → List (List Char)
  | [] => [[]]
  | c :: cs =>
    let r := splitOnDot cs
    if c == '.' then [] :: r
    else
      match r with
      | h :: t => (c :: h) :: t
      | [] => [[c]]

/-- Consume exactly `n` decimal digits from the front of the list (part of
the model of the regex `\d{1,3}`). -/
def consumeDigits : Nat → List Char → Option (List Char)
  | 0, cs => some cs
  | _ + 1, [] => none
  | n + 1, c :: cs => if pyIsDigit c then consumeDigits n cs else none

/-- All remainders after matching `\d{1,3}\.` at the front of the list:
one, two or three digits followed by a literal dot. -/
def octetChoices (cs : List Char) : List (List Char) :=
  [1, 2, 3].filterMap fun n =>
    match consumeDigits n cs with
    | some ('.' :: rest) => some rest
    | _ => none

/-- The final `\d{1,3}` group of the IPv4-shaped regex matches here exactly
when the list starts with a digit. -/
def ipTailMatch : List Char → Bool
  | c :: _ => pyIsDigit c
  | [] => false

/-- The regex `\d{1,3}\.\d{1,3}\.\d{1,3}\.\d{1,3}` has a match anchored at
the front of the list. -/
def ipMatchAt (cs : List Char) : Bool :=
  (octetChoices cs).any fun r1 =>
    (octetChoices r1).any fun r2 =>
      (octetChoices r2).any ipTailMatch

/-- Model of `re.search(r'\d{1,3}\.\d{1,3}\.\d{1,3}\.\d{1,3}', url)` being
truthy: the pattern matches at some start position. -/
def hasIpPattern : List Char → Bool
  | [] => false
  | c :: cs => ipMatchAt (c :: cs) || hasIpPattern cs

/-- Characters CPython's `urlsplit` accepts inside a URL scheme. -/
def schemeChar (c : Char) : Bool :=
  pyIsAlpha c || pyIsDigit c || c == '+' || c == '-' || c == '.'

/-- Model of the scheme-splitting step of CPython `urllib.parse.urlsplit`:
if the text before the first `':'` is a nonempty valid scheme starting with
a letter, strip it (lower-cased scheme returned first), otherwise no
scheme. -/
def splitScheme (s : List Char) : List Char × List Char :=
  match s.findIdx? (· == ':') with
  | some i =>
    if (i != 0) && (match s with | c :: _ => pyIsAlpha c | [] => false)
        && (s.take i).all schemeChar then
      ((s.take i).map pyToLower, s.drop (i + 1))
    else ([], s)
  | none => ([], s)

/-- The part of a netloc after the last `'@'`
(CPython `netloc.rpartition('@')`). -/
def afterLastAt (l : List Char) : List Char :=
  if l.contains '@' then (l.reverse.takeWhile (· != '@')).reverse else l

/-- Model of the `hostname` property of CPython's split result: strip user
info, take the bracketed host if a `'['` is present, otherwise the part
before the first `':'`, and lower-case it. -/
def hostnameOfNetloc (netloc : List Char) : List Char :=
  let hostinfo := afterLastAt netloc
  let h :=
    if hostinfo.contains '[' then
      ((hostinfo.dropWhile (· != '[')).drop 1).takeWhile (· != ']')
    else
      hostinfo.takeWhile (· != ':')
  h.map pyToLower

/-- Model of CPython `urllib.parse.urlparse` restricted to the
`hostname`/`path` fields used by `extract_features`: split off the scheme,
then a `//`-introduced netloc delimited by `/?#`, then the path up to
`?` or `#`.  Returns `none` exactly where CPython raises `ValueError`
(a netloc with an unmatched `'['` or `']'`); the `hostname or ''` and
`path or ''` defaults of the caller are already folded in. -/
def pyUrlsplitHostPath (s : List Char) : Option (List Char × List Char) :=
  let rest := (splitScheme s).2
  let nlr :=
    match rest with
    | '/' :: '/' :: r =>
      let nl := r.takeWhile fun c => !(c == '/' || c == '?' || c == '#')
      (nl, r.drop nl.length)
    | _ => (([] : List Char), rest)
  let netloc := nlr.1
  if (netloc.contains '[' && !netloc.contains ']')
      || (netloc.contains ']' && !netloc.contains '[') then
    none
  else
    some (hostnameOfNetloc netloc, nlr.2.takeWhile fun c => !(c == '?' || c == '#'))

/-- The string actually handed to `urlparse` by `extract_features`: the URL
itself when it starts with `"http"`, otherwise `"http://" ++ url`. -/
def prefixTarget (url : List Char) : List Char :=
  if isPrefixList ['h', 't', 't', 'p'] url then url
  else ['h', 't', 't', 'p', ':', '/', '/'] ++ url

/-- The guarded parsing step of `extract_features` (`app.py` lines 17–23):
parse the possibly-`http://`-prefixed URL; on a parse error fall back to
`hostname = ""`, `path = <original url>`. -/
def parseHostPath (url : List Char) : List Char × List Char :=
  match pyUrlsplitHostPath (prefixTarget url) with
  | some hp => hp
  | none => ([], url)

/-- The fixed keyword set of `has_suspicious_word` (`app.py` lines 46–49). -/
def suspiciousWords : List (List Char) :=
  [String.data "login", String.data "secure", String.data "account",
   String.data "update", String.data "bank", String.data "verify",
   String.data "confirm", String.data "paypal", String.data "signin",
   String.data "ebay", String.data "admin", String.data "password"]

/-- The 21-field feature record built by `extract_features`
(`app.py` lines 25–53).  Counts and 0/1 flags are `Nat`, `num_subdomains`
is `Int` (it may be negative), ratios are exact rationals. -/
structure FeatureRecord where
  url_length : Nat
  hostname_length : Nat
  path_length : Nat
  num_dots : Nat
  num_hyphens : Nat
  num_underscores : Nat
  num_slashes : Nat
  num_at : Nat
  num_question : Nat
  num_equals : Nat
  num_ampersand : Nat
  num_percent : Nat
  num_digits : Nat
  has_ip : Nat
  has_https : Nat
  has_www : Nat
  has_at_sign : Nat
  has_double_slash : Nat
  has_hex_encoding : Nat
  num_subdomains : Int
  has_suspicious_word : Nat
  digit_ratio : ℚ
  letter_ratio : ℚ
  special_ratio : ℚ
deriving DecidableEq, Repr

/-- Model of `extract_features` (`app.py` lines 15–54). -/
def extract_features (url : List Char) : FeatureRecord :=
  let hp := parseHostPath url
  let hostname := hp.1
  let path := hp.2
  { url_length := url.length
    hostname_length := hostname.length
    path_length := path.length
    num_dots := url.count '.'
    num_hyphens := url.count '-'
    num_underscores := url.count '_'
    num_slashes := url.count '/'
    num_at := url.count '@'
    num_question := url.count '?'
    num_equals := url.count '='
    num_ampersand := url.count '&'
    num_percent := url.count '%'
    num_digits := url.countP pyIsDigit
    has_ip := if hasIpPattern url then 1 else 0
    has_https := if isPrefixList (String.data "https") url then 1 else 0
    has_www := if containsSub url (String.data "www.") then 1 else 0
    has_at_sign := if url.contains '@' then 1 else 0
    has_double_slash := if containsSub (url.drop 7) ['/', '/'] then 1 else 0
    has_hex_encoding := if url.contains '%' then 1 else 0
    num_subdomains :=
      if hostname.isEmpty then 0 else ((splitOnDot hostname).length : Int) - 2
    has_suspicious_word :=
      if suspiciousWords.any (fun w => containsSub (url.map pyToLower) w) then 1 else 0
    digit_ratio := (url.countP pyIsDigit : ℚ) / ((max url.length 1 : Nat) : ℚ)
    letter_ratio := (url.countP pyIsAlpha : ℚ) / ((max url.length 1 : Nat) : ℚ)
    special_ratio :=
      (url.countP (fun c => !pyIsAlnum c) : ℚ) / ((max url.length 1 : Nat) : ℚ) }

/-- The 8 normalized threat-signal scores of `get_dna_scores`
(`app.py` lines 57–68), in source order. -/
structure DnaScores where
  lengthRisk : ℚ
  specialChars : ℚ
  suspiciousKW : ℚ
  ipAddress : ℚ
  subdomainDepth : ℚ
  digitDensity : ℚ
  hyphenAbuse : ℚ
  encodingTricks : ℚ
deriving DecidableEq, Repr

/-- Model of `get_dna_scores` (`app.py` lines 57–68). -/
def get_dna_scores (url : List Char) (features : FeatureRecord) : DnaScores :=
  { lengthRisk := min ((url.length : ℚ) / 150) 1
    specialChars := min (features.special_ratio * 3) 1
    suspiciousKW := (features.has_suspicious_word : ℚ)
    ipAddress := (features.has_ip : ℚ)
    subdomainDepth := min (((max features.num_subdomains 0 : Int) : ℚ) / 4) 1
    digitDensity := min (features.digit_ratio * 4) 1
    hyphenAbuse := min ((features.num_hyphens : ℚ) / 6) 1
    encodingTricks := (features.has_hex_encoding : ℚ) }

/-- Modelled from the spec: the trained classifier and label encoder
(`best_model.pkl`, `label_encoder.pkl`) are out-of-repo artifacts; the
spec describes them as an opaque capability with `predict` returning a
class index, `predictProbabilities`, and "a fixed, pre-established mapping
from classIndex to classLabel" over a fixed label set (`le.classes_`,
which a scikit-learn `LabelEncoder` keeps as distinct sorted labels, so
the classes are pairwise distinct and every predicted index resolves to
one of them). -/
structure Classifier where
  classes : List String
  nodupClasses : classes.Nodup
  predictIdx : FeatureRecord → Nat
  idxLt : ∀ f, predictIdx f < classes.length
  predictProba : FeatureRecord → List ℚ

/-- `le.inverse_transform([model.predict(df)[0]])[0]`: resolve the
predicted class index to its label. -/
def predictLabel (clf : Classifier) (f : FeatureRecord) : String :=
  clf.classes.get ⟨clf.predictIdx f, clf.idxLt f⟩

/-- Model of Python's banker's rounding (`round`) to an integer. -/
def pyRound (q : ℚ) : Int :=
  let f := Int.floor q
  let r := q - f
  if r < 1/2 then f
  else if 1/2 < r then f + 1
  else if f % 2 = 0 then f else f + 1

/-- Model of Python `round(q, d)`: round to `d` decimal places. -/
def pyRoundTo (d : Nat) (q : ℚ) : ℚ :=
  (pyRound (q * 10 ^ d) : ℚ) / 10 ^ d

/-- Model of Python `max` on a list of numbers (the probability vectors it
is applied to are nonempty; the empty case is defaulted to `0`). -/
def listMax : List ℚ → ℚ
  | [] => 0
  | x :: xs => xs.foldl max x

/-- One element of the `results` list built by `/bulk`
(`app.py` lines 121–126). -/
structure BulkEntry where
  url : List Char
  prediction : String
  confidence : ℚ
  probabilities : List (String × ℚ)
deriving DecidableEq

/-- Response of `/bulk` on success (`app.py` line 129). -/
structure BulkResponse where
  results : List BulkEntry
  summary : List (String × Nat)
  total : Nat
deriving DecidableEq

/-- The per-URL body of the `/bulk` loop (`app.py` lines 115–126):
extract features, classify, and package one result. -/
def processUrl (clf : Classifier) (url : List Char) : BulkEntry :=
  let f := extract_features url
  { url := url
    prediction := predictLabel clf f
    confidence := pyRoundTo 1 (listMax (clf.predictProba f) * 100)
    probabilities :=
      (clf.classes.zip (clf.predictProba f)).map fun p => (p.1, pyRoundTo 4 p.2) }

/-- The `/bulk` iteration (`app.py` lines 110–126): trim each entry, skip
the ones that become empty, process the rest in order. -/
def bulkLoop (clf : Classifier) : List (List Char) → List BulkEntry
  | [] => []
  | u :: rest =>
    let url := pyStrip u
    if url.isEmpty then bulkLoop clf rest
    else processUrl clf url :: bulkLoop clf rest

/-- Model of the `/bulk` handler (`app.py` lines 101–129), with the JSON
`urls` field already decoded to a list of strings. -/
def bulk (clf : Classifier) (urls : List (List Char)) : Except String BulkResponse :=
  if urls.isEmpty then Except.error "No URLs provided"
  else if 500 < urls.length then Except.error "Max 500 URLs per batch"
  else
    let results := bulkLoop clf urls
    Except.ok
      { results := results
        summary := clf.classes.map fun c => (c, results.countP fun r => r.prediction == c)
        total := results.length }

/-- Response of `/predict` on success (`app.py` lines 92–98). -/
structure PredictResponse where
  url : List Char
  prediction : String
  probabilities : List (String × ℚ)
  dna : DnaScores
  confidence : ℚ
deriving DecidableEq

/-- Model of the `/predict` handler (`app.py` lines 76–98), with the JSON
`url` field already decoded (`none` when the key is missing, in which case
`data.get('url', '')` supplies the empty string). -/
def predict (clf : Classifier) (urlField : Option (List Char)) : Except String PredictResponse :=
  let url := pyStrip (urlField.getD [])
  if url.isEmpty then Except.error "No URL provided"
  else
    let f := extract_features url
    Except.ok
      { url := url
        prediction := predictLabel clf f
        probabilities :=
          (clf.classes.zip (clf.predictProba f)).map fun p => (p.1, pyRoundTo 4 p.2)
        dna := get_dna_scores url f
        confidence := pyRoundTo 1 (listMax (clf.predictProba f) * 100) }

/-- A concrete classifier instance over the label set of the phishing
dataset, used to instantiate the endpoint theorems. -/
def demoClassifier : Classifier where
  classes := ["benign", "defacement", "malware", "phishing"]
  nodupClasses := by decide
  predictIdx := fun _ => 0
  idxLt := fun _ => Nat.succ_le_succ (Nat.zero_le 3)
  predictProba := fun _ => [1, 0, 0, 0]

/-- A second concrete classifier instance that predicts differently, used
to exhibit that error responses do not depend on the classifier. -/
def demoClassifier2 : Classifier where
  classes := ["benign", "defacement", "malware", "phishing"]
  nodupClasses := by decide
  predictIdx := fun _ => 1
  idxLt := fun _ => Nat.succ_le_succ (Nat.succ_le_succ (Nat.zero_le 2))
  predictProba := fun _ => [0, 1, 0, 0]

/-- A 10000-character URL, the spec's extreme length example. -/
def hugeUrl : List Char := List.replicate 10000 'a'

/-- Every one of the 8 threat-DNA scores lies in `[0, 1]`. -/
def dnaInRange (d : DnaScores) : Prop :=
  (0 ≤ d.lengthRisk ∧ d.lengthRisk ≤ 1) ∧
  (0 ≤ d.specialChars ∧ d.specialChars ≤ 1) ∧
  (0 ≤ d.suspiciousKW ∧ d.suspiciousKW ≤ 1) ∧
  (0 ≤ d.ipAddress ∧ d.ipAddress ≤ 1) ∧
  (0 ≤ d.subdomainDepth ∧ d.subdomainDepth ≤ 1) ∧
  (0 ≤ d.digitDensity ∧ d.digitDensity ≤ 1) ∧
  (0 ≤ d.hyphenAbuse ∧ d.hyphenAbuse ≤ 1) ∧
  (0 ≤ d.encodingTricks ∧ d.encodingTricks ≤ 1)

/-! ### Helper lemmas -/

theorem isPrefixList_iff_take (pat l : List Char) :
    isPrefixList pat l = true ↔ l.take pat.length = pat := by
  induction pat generalizing l with
  | nil => simp [isPrefixList]
  | cons p ps ih =>
    cases l with
    | nil => simp [isPrefixList]
    | cons a as =>
      simp only [isPrefixList, Bool.and_eq_true, beq_iff_eq, ih, List.length_cons,
        List.take_succ_cons, List.cons.injEq]
      constructor
      · rintro ⟨h1, h2⟩
        exact ⟨h1.symm, h2⟩
      · rintro ⟨h1, h2⟩
        exact ⟨h1.symm, h2⟩

theorem containsSub_iff (l pat : List Char) :
    containsSub l pat = true ↔ ∃ n, isPrefixList pat (l.drop n) = true := by
  induction l with
  | nil =>
    cases pat <;> simp [containsSub, isPrefixList]
  | cons a t ih =>
    simp only [containsSub, Bool.or_eq_true, ih]
    constructor
    · rintro (h | ⟨n, hn⟩)
      · exact ⟨0, h⟩
      · exact ⟨n + 1, by simpa using hn⟩
    · rintro ⟨n, hn⟩
      cases n with
      | zero => exact Or.inl (by simpa using hn)
      | succ m => exact Or.inr ⟨m, by simpa using hn⟩

theorem ratioDenom_pos (n : Nat) : (0:ℚ) < ((max n 1 : Nat) : ℚ) := by
  exact_mod_cast Nat.lt_of_lt_of_le Nat.zero_lt_one (le_max_right n 1)

theorem ratio_nonneg (k n : Nat) : 0 ≤ (k : ℚ) / ((max n 1 : Nat) : ℚ) := by
  positivity

theorem ratio_le_one (k n : Nat) (h : k ≤ n) :
    (k : ℚ) / ((max n 1 : Nat) : ℚ) ≤ 1 := by
  rw [div_le_one (ratioDenom_pos n)]
  exact_mod_cast h.trans (le_max_left n 1)

theorem extract_ratio_eq (url : List Char) :
    (extract_features url).digit_ratio
        = (url.countP pyIsDigit : ℚ) / ((max url.length 1 : Nat) : ℚ) ∧
      (extract_features url).letter_ratio
        = (url.countP pyIsAlpha : ℚ) / ((max url.length 1 : Nat) : ℚ) ∧
      (extract_features url).special_ratio
        = (url.countP (fun c => !pyIsAlnum c) : ℚ) / ((max url.length 1 : Nat) : ℚ) :=
  ⟨rfl, rfl, rfl⟩

theorem char_not_digit_alpha (c : Char) : pyIsDigit c = false ∨ pyIsAlpha c = false := by
  rcases Bool.eq_false_or_eq_true (pyIsDigit c) with hd | hd
  · rcases Bool.eq_false_or_eq_true (pyIsAlpha c) with ha | ha
    · exfalso
      simp only [pyIsDigit, Bool.and_eq_true, decide_eq_true_eq] at hd
      simp only [pyIsAlpha, pyIsUpper, pyIsLower, Bool.or_eq_true, Bool.and_eq_true,
        decide_eq_true_eq] at ha
      omega
    · exact Or.inr ha
  · exact Or.inl hd

theorem charClassBound (c : Char) :
    (if pyIsDigit c = true then 1 else 0) + (if pyIsAlpha c = true then 1 else 0)
      + (if (!pyIsAlnum c) = true then 1 else 0) ≤ 1 := by
  rcases char_not_digit_alpha c with h | h <;>
    rcases Bool.eq_false_or_eq_true (pyIsDigit c) with h1 | h1 <;>
      rcases Bool.eq_false_or_eq_true (pyIsAlpha c) with h2 | h2 <;>
        simp_all [pyIsAlnum]

theorem tripleCount_le (l : List Char) :
    l.countP pyIsDigit + l.countP pyIsAlpha + l.countP (fun c => !pyIsAlnum c)
      ≤ l.length := by
  induction l with
  | nil => simp
  | cons c t ih =>
    have hb := charClassBound c
    simp only [List.countP_cons, List.length_cons]
    omega

/-! ### Claims -/

/-- C1: `extract_features` is a total function (modelled as a Lean
function, defined on every input string); `url_length` equals the
character length of the input, each of the three ratio fields lies in
`[0, 1]`, and on the empty string the `max(len, 1)` denominator makes all
three ratios exactly `0` rather than undefined. -/
theorem c1_extract_features_total_ratio_bounds :
    (∀ url : List Char,
      (extract_features url).url_length = url.length ∧
      (0 ≤ (extract_features url).digit_ratio ∧ (extract_features url).digit_ratio ≤ 1) ∧
      (0 ≤ (extract_features url).letter_ratio ∧ (extract_features url).letter_ratio ≤ 1) ∧
      (0 ≤ (extract_features url).special_ratio ∧ (extract_features url).special_ratio ≤ 1)) ∧
    (extract_features []).digit_ratio = 0 ∧
    (extract_features []).letter_ratio = 0 ∧
    (extract_features []).special_ratio = 0 := by
  refine ⟨fun url => ⟨rfl, ⟨?_, ?_⟩, ⟨?_, ?_⟩, ⟨?_, ?_⟩⟩, ?_, ?_, ?_⟩
  · rw [(extract_ratio_eq url).1]
    exact ratio_nonneg _ _
  · rw [(extract_ratio_eq url).1]
    exact ratio_le_one _ _ (List.countP_le_length _)
  · rw [(extract_ratio_eq url).2.1]
    exact ratio_nonneg _ _
  · rw [(extract_ratio_eq url).2.1]
    exact ratio_le_one _ _ (List.countP_le_length _)
  · rw [(extract_ratio_eq url).2.2]
    exact ratio_nonneg _ _
  · rw [(extract_ratio_eq url).2.2]
    exact ratio_le_one _ _ (List.countP_le_length _)
  · rw [(extract_ratio_eq []).1]
    simp
  · rw [(extract_ratio_eq []).2.1]
    simp
  · rw [(extract_ratio_eq []).2.2]
    simp

/-- C9: for every input string the three ratio fields sum to at most `1`,
because digits and letters are disjoint character classes counted as
alphanumeric while `special_ratio` counts only non-alphanumeric
characters. -/
theorem c9_ratio_sum_le_one : ∀ url : List Char,
    (extract_features url).digit_ratio + (extract_features url).letter_ratio
      + (extract_features url).special_ratio ≤ 1 := by
  intro url
  obtain ⟨h1, h2, h3⟩ := extract_ratio_eq url
  rw [h1, h2, h3, div_add_div_same, div_add_div_same,
    div_le_one (ratioDenom_pos url.length)]
  exact_mod_cast (tripleCount_le url).trans (le_max_left url.length 1)

/-- C2: the parsing step of `extract_features` prepends `"http://"` when
the input does not start with `"http"`; it never raises (it is a total
Lean function) and any parsing failure degrades to `hostname = ""` and
`path = <original URL>`; on the scheme-less input `"example.com/page"` it
yields the non-empty hostname `"example.com"`. -/
theorem c2_parse_step_graceful :
    (∀ url : List Char, isPrefixList (String.data "http") url = false →
      prefixTarget url = String.data "http://" ++ url) ∧
    (∀ url : List Char, pyUrlsplitHostPath (prefixTarget url) = none →
      parseHostPath url = ([], url)) ∧
    (parseHostPath (String.data "example.com/page")).1 = String.data "example.com" ∧
    (parseHostPath (String.data "example.com/page")).1 ≠ [] := by
  refine ⟨fun url h => ?_, fun url h => ?_, by decide, by decide⟩
  · show (if isPrefixList ['h', 't', 't', 'p'] url then url
        else ['h', 't', 't', 'p', ':', '/', '/'] ++ url) = String.data "http://" ++ url
    rw [show isPrefixList ['h', 't', 't', 'p'] url = false from h]
    rfl
  · unfold parseHostPath
    rw [h]

/-- Witness for C2: on `"example.com/page"` the prefix branch fires, and
on `"http://["` (CPython raises `ValueError: Invalid IPv6 URL`) the
fallback yields `hostname = ""`, `path = <original URL>`. -/
theorem c2_parse_step_graceful_witness :
    (isPrefixList (String.data "http") (String.data "example.com/page") = false ∧
      prefixTarget (String.data "example.com/page")
        = String.data "http://" ++ String.data "example.com/page") ∧
    (pyUrlsplitHostPath (prefixTarget (String.data "http://[")) = none ∧
      parseHostPath (String.data "http://[")
        = ([], String.data "http://[")) :=
  ⟨⟨by decide, c2_parse_step_graceful.1 _ (by decide)⟩,
   ⟨by decide, c2_parse_step_graceful.2.1 _ (by decide)⟩⟩

theorem flagIte_le_one (b : Bool) : (if b then (1:Nat) else 0) ≤ 1 := by
  cases b <;> simp

theorem flag_bounds (url : List Char) :
    (extract_features url).has_suspicious_word ≤ 1 ∧
      (extract_features url).has_ip ≤ 1 ∧
      (extract_features url).has_hex_encoding ≤ 1 := by
  refine ⟨?_, ?_, ?_⟩
  · rw [show (extract_features url).has_suspicious_word
        = (if suspiciousWords.any (fun w => containsSub (url.map pyToLower) w)
           then 1 else 0) from rfl]
    exact flagIte_le_one _
  · rw [show (extract_features url).has_ip
        = (if hasIpPattern url then 1 else 0) from rfl]
    exact flagIte_le_one _
  · rw [show (extract_features url).has_hex_encoding
        = (if url.contains '%' then 1 else 0) from rfl]
    exact flagIte_le_one _

/-- C3: for every URL and the feature record extracted from it, all 8
threat-DNA scores lie in `[0, 1]`; the scorer reads only the URL's length
and the given record (it neither mutates the record — it is a pure
function in this embedding — nor re-derives any feature from the URL
text); and on a 10000-character URL the Length Risk score clamps to
exactly `1`. -/
theorem c3_dna_scores_clamped :
    (∀ url : List Char, dnaInRange (get_dna_scores url (extract_features url))) ∧
    (∀ url url' : List Char, ∀ f : FeatureRecord, url.length = url'.length →
      get_dna_scores url f = get_dna_scores url' f) ∧
    (get_dna_scores hugeUrl (extract_features hugeUrl)).lengthRisk = 1 := by
  refine ⟨fun url => ?_, fun url url' f h => by simp only [get_dna_scores, h], ?_⟩
  · obtain ⟨hsw, hip, hhex⟩ := flag_bounds url
    obtain ⟨hd, hl, hs⟩ := extract_ratio_eq url
    refine ⟨⟨?_, ?_⟩, ⟨?_, ?_⟩, ⟨?_, ?_⟩, ⟨?_, ?_⟩, ⟨?_, ?_⟩, ⟨?_, ?_⟩, ⟨?_, ?_⟩, ⟨?_, ?_⟩⟩
    · exact le_min (by positivity) zero_le_one
    · exact min_le_right _ _
    · refine le_min (mul_nonneg ?_ (by norm_num)) zero_le_one
      rw [hs]
      exact ratio_nonneg _ _
    · exact min_le_right _ _
    · exact Nat.cast_nonneg _
    · show ((extract_features url).has_suspicious_word : ℚ) ≤ 1
      exact_mod_cast hsw
    · exact Nat.cast_nonneg _
    · show ((extract_features url).has_ip : ℚ) ≤ 1
      exact_mod_cast hip
    · refine le_min (div_nonneg ?_ (by norm_num)) zero_le_one
      exact_mod_cast le_max_right (extract_features url).num_subdomains 0
    · exact min_le_right _ _
    · refine le_min (mul_nonneg ?_ (by norm_num)) zero_le_one
      rw [hd]
      exact ratio_nonneg _ _
    · exact min_le_right _ _
    · exact le_min (by positivity) zero_le_one
    · exact min_le_right _ _
    · exact Nat.cast_nonneg _
    · show ((extract_features url).has_hex_encoding : ℚ) ≤ 1
      exact_mod_cast hhex
  · show min ((hugeUrl.length : ℚ) / 150) 1 = 1
    rw [show hugeUrl.length = 10000 from by
      rw [show hugeUrl = List.replicate 10000 'a' from rfl, List.length_replicate]]
    norm_num

/-- Witness for C3: the scorer gives equal results on two different URLs
of the same length with the same feature record. -/
theorem c3_dna_scores_clamped_witness :
    (String.data "ab").length = (String.data "cd").length ∧
    get_dna_scores (String.data "ab") (extract_features (String.data "ab"))
      = get_dna_scores (String.data "cd") (extract_features (String.data "ab")) :=
  ⟨by decide, c3_dna_scores_clamped.2.1 _ _ _ (by decide)⟩

/-- C4: `num_subdomains` is the number of `'.'`-separated labels of the
parsed hostname minus 2 when the hostname is non-empty (`0` when it is
empty), is not clamped in the feature record (it is `-1` on the dot-free
hostname of `"localhost"`), while the ThreatDNA Subdomain Depth score is
`min(max(num_subdomains, 0)/4, 1)`, which clamps negative values to `0`. -/
theorem c4_num_subdomains_unclamped :
    (∀ url : List Char,
      (extract_features url).num_subdomains =
        if (parseHostPath url).1.isEmpty then 0
        else ((splitOnDot (parseHostPath url).1).length : Int) - 2) ∧
    (extract_features (String.data "localhost")).num_subdomains = -1 ∧
    (∀ url : List Char,
      (get_dna_scores url (extract_features url)).subdomainDepth =
        min (((max (extract_features url).num_subdomains 0 : Int) : ℚ) / 4) 1) ∧
    (get_dna_scores (String.data "localhost")
        (extract_features (String.data "localhost"))).subdomainDepth = 0 := by
  refine ⟨fun url => rfl, by decide, fun url => rfl, ?_⟩
  have h : (extract_features (String.data "localhost")).num_subdomains = -1 := by decide
  show min (((max (extract_features (String.data "localhost")).num_subdomains 0 : Int) : ℚ)
      / 4) 1 = 0
  rw [h]
  norm_num

theorem doubleSlash_equiv (url : List Char) :
    containsSub (url.drop 7) ['/', '/'] = true ↔
      ∃ i, 7 ≤ i ∧ (url.drop i).take 2 = ['/', '/'] := by
  rw [containsSub_iff]
  constructor
  · rintro ⟨n, hn⟩
    refine ⟨7 + n, by omega, ?_⟩
    have h2 := (isPrefixList_iff_take _ _).mp hn
    rw [List.drop_drop] at h2
    simpa using h2
  · rintro ⟨i, hi, htake⟩
    refine ⟨i - 7, (isPrefixList_iff_take _ _).mpr ?_⟩
    rw [List.drop_drop, show 7 + (i - 7) = i from by omega]
    simpa using htake

/-- C5: `has_double_slash` is `1` exactly when the original, un-prefixed
URL contains `"//"` starting at a character index `≥ 7`; in particular the
scheme-less `"a//b"` (whose `"//"` sits at index 1 of the original string,
though at index 8 of the `"http://"`-prefixed parse input) gets flag `0`,
while `"example.com//path"` gets flag `1`. -/
theorem c5_double_slash_on_original :
    (∀ url : List Char,
      ((extract_features url).has_double_slash = 1 ↔
        ∃ i, 7 ≤ i ∧ (url.drop i).take 2 = ['/', '/'])) ∧
    (extract_features (String.data "a//b")).has_double_slash = 0 ∧
    (extract_features (String.data "example.com//path")).has_double_slash = 1 := by
  refine ⟨fun url => ?_, by decide, by decide⟩
  rw [show (extract_features url).has_double_slash
      = (if containsSub (url.drop 7) ['/', '/'] then 1 else 0) from rfl]
  cases hx : containsSub (url.drop 7) ['/', '/']
  · rw [if_neg (by simp)]
    constructor
    · intro h
      exact absurd h (by decide)
    · intro h
      have hc := (doubleSlash_equiv url).mpr h
      rw [hx] at hc
      cases hc
  · rw [if_pos rfl]
    constructor
    · intro _
      exact (doubleSlash_equiv url).mp hx
    · intro _
      rfl

/-- C8: the spec's three test vectors, evaluated on the model: the empty
string, `"https://www.paypal-login.com/secure?x=1"`, and
`"192.168.1.1/admin"`, produce exactly the stated field values. -/
theorem c8_test_vectors :
    ((extract_features (String.data "")).url_length = 0 ∧
      (extract_features (String.data "")).digit_ratio = 0 ∧
      (extract_features (String.data "")).letter_ratio = 0 ∧
      (extract_features (String.data "")).special_ratio = 0 ∧
      (extract_features (String.data "")).has_ip = 0 ∧
      (extract_features (String.data "")).has_https = 0 ∧
      (extract_features (String.data "")).num_subdomains = 0) ∧
    ((extract_features (String.data "https://www.paypal-login.com/secure?x=1")).has_https = 1 ∧
      (extract_features (String.data "https://www.paypal-login.com/secure?x=1")).has_www = 1 ∧
      (extract_features
          (String.data "https://www.paypal-login.com/secure?x=1")).has_suspicious_word = 1 ∧
      (extract_features (String.data "https://www.paypal-login.com/secure?x=1")).num_hyphens = 1 ∧
      (extract_features (String.data "https://www.paypal-login.com/secure?x=1")).num_equals = 1 ∧
      (extract_features (String.data "https://www.paypal-login.com/secure?x=1")).num_question = 1) ∧
    ((extract_features (String.data "192.168.1.1/admin")).has_ip = 1 ∧
      (extract_features (String.data "192.168.1.1/admin")).has_suspicious_word = 1) := by
  refine ⟨⟨by decide, ?_, ?_, ?_, by decide, by decide, by decide⟩,
    ⟨by decide, by decide, by decide, by decide, by decide, by decide⟩,
    ⟨by decide, by decide⟩⟩
  · rw [show String.data "" = ([] : List Char) from rfl, (extract_ratio_eq []).1]
    simp
  · rw [show String.data "" = ([] : List Char) from rfl, (extract_ratio_eq []).2.1]
    simp
  · rw [show String.data "" = ([] : List Char) from rfl, (extract_ratio_eq []).2.2]
    simp

theorem bulkLoop_eq (clf : Classifier) (urls : List (List Char)) :
    bulkLoop clf urls
      = ((urls.map pyStrip).filter (fun u => !u.isEmpty)).map (processUrl clf) := by
  induction urls with
  | nil => rfl
  | cons u rest ih =>
    simp only [bulkLoop, List.map_cons, List.filter_cons]
    cases h : (pyStrip u).isEmpty
    · simp [h, ih]
    · simp [h, ih]

theorem bulk_cases (clf : Classifier) (urls : List (List Char)) :
    (urls = [] ∧ bulk clf urls = Except.error "No URLs provided") ∨
    (urls ≠ [] ∧ 500 < urls.length ∧
      bulk clf urls = Except.error "Max 500 URLs per batch") ∨
    (urls ≠ [] ∧ urls.length ≤ 500 ∧
      bulk clf urls = Except.ok
        { results := bulkLoop clf urls
          summary := clf.classes.map fun c =>
            (c, (bulkLoop clf urls).countP fun r => r.prediction == c)
          total := (bulkLoop clf urls).length }) := by
  cases urls with
  | nil => exact Or.inl ⟨rfl, rfl⟩
  | cons u rest =>
    by_cases hl : 500 < (u :: rest).length
    · refine Or.inr (Or.inl ⟨by simp, hl, ?_⟩)
      unfold bulk
      rw [if_neg (by simp), if_pos hl]
    · refine Or.inr (Or.inr ⟨by simp, by omega, ?_⟩)
      unfold bulk
      rw [if_neg (by simp), if_neg hl]

/-- C6: `/predict` answers the `InvalidInput` 400-response exactly when the
`url` field is missing or strips to the empty string; `/bulk` answers
`InvalidInput` exactly when `urls` is empty and `BatchTooLarge` exactly
when it holds more than 500 entries; and in every such error case the
response does not depend on the classifier — no per-URL processing or
classification contributes to it. -/
theorem c6_input_guards :
    (∀ (clf : Classifier) (urlField : Option (List Char)),
      (predict clf urlField = Except.error "No URL provided" ↔
        (pyStrip (urlField.getD [])).isEmpty = true)) ∧
    (∀ (clf : Classifier) (urls : List (List Char)),
      (bulk clf urls = Except.error "No URLs provided" ↔ urls = [])) ∧
    (∀ (clf : Classifier) (urls : List (List Char)),
      (bulk clf urls = Except.error "Max 500 URLs per batch" ↔
        urls ≠ [] ∧ 500 < urls.length)) ∧
    (∀ (clf clf2 : Classifier) (urlField : Option (List Char)),
      (pyStrip (urlField.getD [])).isEmpty = true →
      predict clf urlField = predict clf2 urlField) ∧
    (∀ (clf clf2 : Classifier) (urls : List (List Char)),
      urls = [] ∨ 500 < urls.length → bulk clf urls = bulk clf2 urls) := by
  refine ⟨fun clf urlField => ?_, fun clf urls => ?_, fun clf urls => ?_,
    fun clf clf2 urlField h => ?_, fun clf clf2 urls h => ?_⟩
  · cases h : (pyStrip (urlField.getD [])).isEmpty
    · simp [predict, h]
    · simp [predict, h]
  · rcases bulk_cases clf urls with ⟨h0, he⟩ | ⟨h0, _, he⟩ | ⟨h0, _, he⟩
    · rw [he, h0]
      simp
    · rw [he]
      constructor
      · intro hh
        rw [Except.error.injEq] at hh
        exact absurd hh (by decide)
      · intro hh
        exact absurd hh h0
    · rw [he]
      constructor
      · intro hh
        exact Except.noConfusion hh
      · intro hh
        exact absurd hh h0
  · rcases bulk_cases clf urls with ⟨h0, he⟩ | ⟨h0, hl, he⟩ | ⟨h0, hl, he⟩
    · rw [he, h0]
      constructor
      · intro hh
        rw [Except.error.injEq] at hh
        exact absurd hh.symm (by decide)
      · rintro ⟨hne, _⟩
        exact absurd rfl hne
    · rw [he]
      exact ⟨fun _ => ⟨h0, hl⟩, fun _ => rfl⟩
    · rw [he]
      constructor
      · intro hh
        exact Except.noConfusion hh
      · rintro ⟨_, hgt⟩
        omega
  · have e1 : predict clf urlField = Except.error "No URL provided" := by
      simp only [predict]
      rw [if_pos h]
    have e2 : predict clf2 urlField = Except.error "No URL provided" := by
      simp only [predict]
      rw [if_pos h]
    rw [e1, e2]
  · rcases h with rfl | hl
    · rfl
    · cases urls with
      | nil => rfl
      | cons u rest =>
        have e1 : bulk clf (u :: rest) = Except.error "Max 500 URLs per batch" := by
          unfold bulk
          rw [if_neg (by simp), if_pos hl]
        have e2 : bulk clf2 (u :: rest) = Except.error "Max 500 URLs per batch" := by
          unfold bulk
          rw [if_neg (by simp), if_pos hl]
        rw [e1, e2]

/-- Witness for C6: a whitespace-only single URL and an over-limit batch
both produce classifier-independent error responses. -/
theorem c6_input_guards_witness :
    ((pyStrip ((some (String.data "  ")).getD [])).isEmpty = true ∧
      predict demoClassifier (some (String.data "  "))
        = predict demoClassifier2 (some (String.data "  "))) ∧
    (((List.replicate 501 (String.data "x")) = ([] : List (List Char)) ∨
        500 < (List.replicate 501 (String.data "x")).length) ∧
      bulk demoClassifier (List.replicate 501 (String.data "x"))
        = bulk demoClassifier2 (List.replicate 501 (String.data "x"))) :=
  ⟨⟨by decide, c6_input_guards.2.2.2.1 _ _ _ (by decide)⟩,
   ⟨Or.inr (by rw [List.length_replicate]; omega),
    c6_input_guards.2.2.2.2 _ _ _ (Or.inr (by rw [List.length_replicate]; omega))⟩⟩

/-- C7: on a valid batch (non-empty, at most 500 entries) the response is
exactly the in-order, one-result-per-survivor processing of the trimmed
non-empty entries, `total` is the number of results, the summary maps
every label of the fixed label set to the count of results carrying it
(labels that never appear are present with count 0 by `countP`), and the
spec's example batch `["", "  ", "http://a.com"]` produces exactly one
result. -/
theorem c7_batch_processing :
    (∀ (clf : Classifier) (urls : List (List Char)), urls ≠ [] → urls.length ≤ 500 →
      bulk clf urls = Except.ok
        { results := ((urls.map pyStrip).filter (fun u => !u.isEmpty)).map (processUrl clf)
          summary := clf.classes.map fun c =>
            (c, (((urls.map pyStrip).filter (fun u => !u.isEmpty)).map
              (processUrl clf)).countP fun r => r.prediction == c)
          total := (((urls.map pyStrip).filter (fun u => !u.isEmpty)).map
            (processUrl clf)).length }) ∧
    (∀ (clf : Classifier) (urls : List (List Char)) (resp : BulkResponse),
      bulk clf urls = Except.ok resp → ∀ c ∈ clf.classes,
        (c, resp.results.countP fun r => r.prediction == c) ∈ resp.summary) ∧
    (∀ clf : Classifier,
      ∃ resp, bulk clf [String.data "", String.data "  ", String.data "http://a.com"]
          = Except.ok resp ∧ resp.total = 1 ∧ resp.total = resp.results.length) := by
  refine ⟨fun clf urls h1 h2 => ?_, fun clf urls resp h c hc => ?_, fun clf => ?_⟩
  · rcases bulk_cases clf urls with ⟨h0, _⟩ | ⟨_, hl, _⟩ | ⟨_, _, he⟩
    · exact absurd h0 h1
    · omega
    · rw [he, bulkLoop_eq]
  · rcases bulk_cases clf urls with ⟨_, he⟩ | ⟨_, _, he⟩ | ⟨_, _, he⟩
    · rw [he] at h
      exact Except.noConfusion h
    · rw [he] at h
      exact Except.noConfusion h
    · rw [he] at h
      injection h with h2
      subst h2
      exact List.mem_map.mpr ⟨c, hc, rfl⟩
  · refine ⟨_, rfl, ?_, rfl⟩
    show (bulkLoop clf [String.data "", String.data "  ", String.data "http://a.com"]).length = 1
    rfl

/-- Witness for C7: the valid one-element batch `["http://a.com"]`
processed by the demo classifier. -/
theorem c7_batch_processing_witness :
    ([String.data "http://a.com"] ≠ ([] : List (List Char))) ∧
    ([String.data "http://a.com"] : List (List Char)).length ≤ 500 ∧
    bulk demoClassifier [String.data "http://a.com"] = Except.ok
      { results := (([String.data "http://a.com"].map pyStrip).filter
          (fun u => !u.isEmpty)).map (processUrl demoClassifier)
        summary := demoClassifier.classes.map fun c =>
          (c, ((([String.data "http://a.com"].map pyStrip).filter
            (fun u => !u.isEmpty)).map (processUrl demoClassifier)).countP
              fun r => r.prediction == c)
        total := ((([String.data "http://a.com"].map pyStrip).filter
          (fun u => !u.isEmpty)).map (processUrl demoClassifier)).length } ∧
    ∃ resp, bulk demoClassifier [String.data "http://a.com"] = Except.ok resp ∧
      "benign" ∈ demoClassifier.classes ∧
      ("benign", resp.results.countP fun r => r.prediction == "benign") ∈ resp.summary := by
  have h1 : [String.data "http://a.com"] ≠ ([] : List (List Char)) := by simp
  have h2 : ([String.data "http://a.com"] : List (List Char)).length ≤ 500 := by
    simp
  have happ := c7_batch_processing.1 demoClassifier _ h1 h2
  exact ⟨h1, h2, happ,
    ⟨_, happ, by decide, c7_batch_processing.2.1 _ _ _ happ "benign" (by decide)⟩⟩

theorem sum_map_add (L : List String) (f g : String → Nat) :
    (L.map fun c => f c + g c).sum = (L.map f).sum + (L.map g).sum := by
  induction L with
  | nil => rfl
  | cons c t ih =>
    simp only [List.map_cons, List.sum_cons, ih]
    omega

theorem sum_indicator_eq_one (x : String) (L : List String) (hnd : L.Nodup)
    (hx : x ∈ L) :
    (L.map fun c => if x == c then (1:Nat) else 0).sum = 1 := by
  induction L with
  | nil => cases hx
  | cons c t ih =>
    simp only [List.map_cons, List.sum_cons]
    rcases List.mem_cons.mp hx with h | h
    · subst h
      rw [if_pos (by simp)]
      have hnot : x ∉ t := (List.nodup_cons.mp hnd).1
      have hz : (t.map fun c => if x == c then (1:Nat) else 0).sum = 0 := by
        apply List.sum_eq_zero
        intro y hy
        rcases List.mem_map.mp hy with ⟨c, hc, rfl⟩
        rw [if_neg]
        simp only [beq_iff_eq]
        intro e
        exact hnot (e ▸ hc)
      omega
    · have hne : x ≠ c := fun e => ((List.nodup_cons.mp hnd).1) (e ▸ h)
      rw [if_neg (by simp only [beq_iff_eq]; exact hne),
        ih (List.nodup_cons.mp hnd).2 h]

theorem sum_countP_classes (L : List String) (hnd : L.Nodup) (l : List BulkEntry)
    (hmem : ∀ r ∈ l, r.prediction ∈ L) :
    (L.map fun c => l.countP fun r => r.prediction == c).sum = l.length := by
  induction l with
  | nil =>
    simp only [List.countP_nil]
    exact List.sum_eq_zero fun x hx => by
      rcases List.mem_map.mp hx with ⟨c, _, rfl⟩
      rfl
  | cons r t ih =>
    have hr : r.prediction ∈ L := hmem r (List.mem_cons_self r t)
    have ht : ∀ x ∈ t, x.prediction ∈ L := fun x hx => hmem x (List.mem_cons_of_mem _ hx)
    simp only [List.countP_cons, List.length_cons]
    rw [sum_map_add L (fun c => t.countP fun r => r.prediction == c)
      (fun c => if (r.prediction == c) = true then 1 else 0), ih ht,
      sum_indicator_eq_one r.prediction L hnd hr]

/-- C10: every result of a successful batch carries a prediction from the
classifier's fixed label set, and consequently the summary counts add up
to the reported total — each result falls in exactly one bucket. -/
theorem c10_labels_partition :
    ∀ (clf : Classifier) (urls : List (List Char)) (resp : BulkResponse),
      bulk clf urls = Except.ok resp →
        (∀ r ∈ resp.results, r.prediction ∈ clf.classes) ∧
        (resp.summary.map Prod.snd).sum = resp.total := by
  intro clf urls resp h
  rcases bulk_cases clf urls with ⟨_, he⟩ | ⟨_, _, he⟩ | ⟨_, _, he⟩
  · rw [he] at h
    exact Except.noConfusion h
  · rw [he] at h
    exact Except.noConfusion h
  · rw [he] at h
    injection h with h2
    subst h2
    constructor
    · intro r hr
      rw [bulkLoop_eq] at hr
      rcases List.mem_map.mp hr with ⟨u, _, rfl⟩
      show predictLabel clf (extract_features u) ∈ clf.classes
      exact List.get_mem _ _ _
    · show ((clf.classes.map fun c =>
          (c, (bulkLoop clf urls).countP fun r => r.prediction == c)).map Prod.snd).sum
        = (bulkLoop clf urls).length
      rw [List.map_map]
      show (clf.classes.map fun c =>
          (bulkLoop clf urls).countP fun r => r.prediction == c).sum
        = (bulkLoop clf urls).length
      apply sum_countP_classes clf.classes clf.nodupClasses
      intro r hr
      rw [bulkLoop_eq] at hr
      rcases List.mem_map.mp hr with ⟨u, _, rfl⟩
      show predictLabel clf (extract_features u) ∈ clf.classes
      exact List.get_mem _ _ _

/-- Witness for C10: the summary of a concrete successful batch sums to
its total and every prediction is in the label set. -/
theorem c10_labels_partition_witness :
    ∃ resp, bulk demoClassifier [String.data "http://a.com"] = Except.ok resp ∧
      (∀ r ∈ resp.results, r.prediction ∈ demoClassifier.classes) ∧
      (resp.summary.map Prod.snd).sum = resp.total := by
  have he : bulk demoClassifier [String.data "http://a.com"]
      = Except.ok
        { results := bulkLoop demoClassifier [String.data "http://a.com"]
          summary := demoClassifier.classes.map fun c =>
            (c, (bulkLoop demoClassifier [String.data "http://a.com"]).countP
              fun r => r.prediction == c)
          total := (bulkLoop demoClassifier [String.data "http://a.com"]).length } := by
    unfold bulk
    rw [if_neg (by simp), if_neg (by simp)]
  exact ⟨_, he, (c10_labels_partition demoClassifier _ _ he).1,
    (c10_labels_partition demoClassifier _ _ he).2⟩
